import Mathlib

/-!
Verification of the Presence Reconciliation and Backoff Engine of the
discord-twitch-kick-stream-notifier bot.

The JavaScript source is shallowly embedded: the per-entity live-message
reconciler (ensureLiveMessage / ensureOfflineMessageDeleted), the per-platform
health and backoff tracker (setPlatformFailure / setPlatformSuccess /
platformInBackoff / computeBackoffMs), the FiveM server backoff
(nextBackoffMs), and the match filter (compileRegexOrFallback together with
the shouldHaveMessage predicate of checkKick).  Asynchronous effector results
(message exists checks, message creation, message deletion) and the random
jitter are passed in as explicit parameters; JavaScript objects keyed by
strings become association lists; timestamps are natural numbers of epoch
milliseconds.
-/

set_option autoImplicit false

namespace StreamNotifier

/-- The two streaming platforms handled by the notifier module. -/
inductive Platform where
  | kick
  | twitch
deriving DecidableEq, Repr

/-- One persisted record of db.state.kickActiveMessages / twitchActiveMessages:
the live-notification message currently believed to exist for a streamer.
Source stores an object with fields messageId, sessionKey, createdAt; message
ids are opaque non-null Discord snowflakes, modelled as naturals. -/
structure LifecycleEntry where
  messageId : Nat
  sessionKey : String
  createdAt : Nat
deriving DecidableEq, Repr

/-- A JavaScript object keyed by streamer key, as an association list with at
most one binding per key (maintained by the operations below). -/
abbrev Active : Type := List (String × LifecycleEntry)

/-- Reading active[streamerKey] on a JavaScript object. -/
def lookupA : Active → String → Option LifecycleEntry
  | [], _ => none
  | (k', v) :: rest, k => if k' = k then some v else lookupA rest k

/-- Effect of the JavaScript statement "delete active[streamerKey]". -/
def eraseA : Active → String → Active
  | [], _ => []
  | (k', v) :: rest, k =>
    if k' = k then eraseA rest k else (k', v) :: eraseA rest k

/-- Effect of the JavaScript assignment "active[streamerKey] = v". -/
def insertA (m : Active) (k : String) (v : LifecycleEntry) : Active :=
  (k, v) :: eraseA m k

/-- The modelled slice of db.state: the two active-message maps.  The maps for
distinct platforms are distinct JavaScript objects (kickActiveMessages and
twitchActiveMessages), selected by stateKey in the source. -/
structure StreamState where
  kickActiveMessages : Active
  twitchActiveMessages : Active
deriving DecidableEq

/-- Selection db.state[stateKey] performed at the top of ensureLiveMessage and
ensureOfflineMessageDeleted. -/
def getActive (st : StreamState) : Platform → Active
  | .kick => st.kickActiveMessages
  | .twitch => st.twitchActiveMessages

/-- Writing back the selected map (the source mutates it in place). -/
def setActive (st : StreamState) : Platform → Active → StreamState
  | .kick, a => { st with kickActiveMessages := a }
  | .twitch, a => { st with twitchActiveMessages := a }

/-- One call observed by the message effector: an existence check on a message
id (with the result the channel reported), a deletion attempt (with its
best-effort outcome, which the caller ignores), or a creation attempt (with
the returned message id, or none when sendNotify failed). -/
inductive EffCall where
  | existsCheck (messageId : Nat) (result : Bool)
  | deleteMsg (messageId : Nat) (result : Bool)
  | create (result : Option Nat)
deriving DecidableEq, Repr

/-- An effector call tagged with the entity (platform and streamer key) whose
reconciliation issued it. -/
abbrev TaggedCall : Type := Platform × String × EffCall

/-- Result of one reconciliation helper: the updated state, the effector calls
it issued in order, and the boolean it returned. -/
structure RunResult where
  state : StreamState
  calls : List TaggedCall
  changed : Bool
deriving DecidableEq

/-- Shallow embedding of ensureLiveMessage(platformKey, streamerKey,
sessionKey, payload).  The awaited effector outcomes are parameters:
existsResult is what notifyMessageExists would return for the stored message,
createResult is the message id sendNotify returns (none on failure),
deleteResult is the ignored outcome of deleteNotifyMessage, and now is
Date.now() at the assignment of createdAt. -/
def ensureLiveMessage (st : StreamState) (platformKey : Platform)
    (streamerKey sessionKey : String) (existsResult : Bool)
    (createResult : Option Nat) (deleteResult : Bool) (now : Nat) :
    RunResult :=
  let active := getActive st platformKey
  match lookupA active streamerKey with
  | some prev =>
    if prev.sessionKey = sessionKey then
      -- same session and a stored message id: check the message still exists
      if existsResult then
        ⟨st, [(platformKey, streamerKey, .existsCheck prev.messageId true)],
          false⟩
      else
        -- message gone: clear the entry, then fall through to the send;
        -- the delete branch is skipped because the session keys are equal
        let active1 := eraseA active streamerKey
        match createResult with
        | none =>
          ⟨setActive st platformKey active1,
            [(platformKey, streamerKey, .existsCheck prev.messageId false),
             (platformKey, streamerKey, .create none)], false⟩
        | some m =>
          ⟨setActive st platformKey
              (insertA active1 streamerKey ⟨m, sessionKey, now⟩),
            [(platformKey, streamerKey, .existsCheck prev.messageId false),
             (platformKey, streamerKey, .create (some m))], true⟩
    else
      -- session rolled over: delete the previous message, then send
      match createResult with
      | none =>
        ⟨st,
          [(platformKey, streamerKey, .deleteMsg prev.messageId deleteResult),
           (platformKey, streamerKey, .create none)], false⟩
      | some m =>
        ⟨setActive st platformKey
            (insertA active streamerKey ⟨m, sessionKey, now⟩),
          [(platformKey, streamerKey, .deleteMsg prev.messageId deleteResult),
           (platformKey, streamerKey, .create (some m))], true⟩
  | none =>
    match createResult with
    | none => ⟨st, [(platformKey, streamerKey, .create none)], false⟩
    | some m =>
      ⟨setActive st platformKey
          (insertA active streamerKey ⟨m, sessionKey, now⟩),
        [(platformKey, streamerKey, .create (some m))], true⟩

/-- Shallow embedding of ensureOfflineMessageDeleted(platformKey,
streamerKey).  The stored message, when present, is deleted best-effort (the
outcome deleteResult is ignored) and the entry is cleared. -/
def ensureOfflineMessageDeleted (st : StreamState) (platformKey : Platform)
    (streamerKey : String) (deleteResult : Bool) : RunResult :=
  let active := getActive st platformKey
  match lookupA active streamerKey with
  | none => ⟨st, [], false⟩
  | some prev =>
    ⟨setActive st platformKey (eraseA active streamerKey),
      [(platformKey, streamerKey, .deleteMsg prev.messageId deleteResult)],
      true⟩

/-- One reconciliation step for a single entity, as performed by the polling
loop: a live step runs ensureLiveMessage (the entity qualified this cycle)
with the given effector outcomes, an offline step runs
ensureOfflineMessageDeleted (the entity did not qualify). -/
inductive Step where
  | live (platformKey : Platform) (streamerKey sessionKey : String)
      (existsResult : Bool) (createResult : Option Nat) (deleteResult : Bool)
      (now : Nat)
  | offline (platformKey : Platform) (streamerKey : String)
      (deleteResult : Bool)
deriving DecidableEq

/-- Execute one step on the state. -/
def runStep (st : StreamState) : Step → RunResult
  | .live p k sk ex cr del now => ensureLiveMessage st p k sk ex cr del now
  | .offline p k del => ensureOfflineMessageDeleted st p k del

/-- Execute a sequence of steps, accumulating the effector-call trace. -/
def runSteps (st : StreamState) : List Step → StreamState × List TaggedCall
  | [] => (st, [])
  | s :: rest =>
    let r := runStep st s
    let r2 := runSteps r.state rest
    (r2.1, r.calls ++ r2.2)

/-- Project the effector-call trace onto one entity. -/
def callsFor (p : Platform) (k : String) (trace : List TaggedCall) :
    List EffCall :=
  trace.filterMap fun c => if c.1 = p ∧ c.2.1 = k then some c.2.2 else none

/-- Qualification result a single step reports for the given entity, when the
step concerns it. -/
def qualOf (p : Platform) (k : String) : Step → Option Bool
  | .live p' k' _ _ _ _ _ => if p' = p ∧ k' = k then some true else none
  | .offline p' k' _ => if p' = p ∧ k' = k then some false else none

/-- Most recent qualification result for the given entity over a step
sequence (none when no step concerned it). -/
def lastQualFor (p : Platform) (k : String) : List Step → Option Bool
  | [] => none
  | s :: rest =>
    match lastQualFor p k rest with
    | some b => some b
    | none => qualOf p k s

/-- Mock-effector bookkeeping for the at-most-one-live-handle property: scan
an entity's effector calls keeping the id of the message currently
outstanding (created, not yet deleted nor confirmed absent).  A successful
create while a message is still outstanding is a violation, reported as
none. -/
def scanOutstanding : Option Nat → List EffCall → Option (Option Nat)
  | cur, [] => some cur
  | cur, c :: rest =>
    match c with
    | .create (some m) =>
      if cur = none then scanOutstanding (some m) rest else none
    | .create none => scanOutstanding cur rest
    | .deleteMsg m _ =>
      scanOutstanding (if cur = some m then none else cur) rest
    | .existsCheck m res =>
      scanOutstanding
        (if res = false ∧ cur = some m then none else cur) rest

/-! ## Health and backoff tracker (kick / twitch platforms) -/

/-- Persisted per-platform health record db.state.kickHealth /
db.state.twitchHealth. -/
structure PlatformHealth where
  consecutiveFailures : Nat
  nextAllowedAt : Nat
  lastError : Option String
  lastErrorAt : Nat
  lastSuccessAt : Nat
  lastLoggedAt : Nat
deriving DecidableEq, Repr

/-- Default record installed by getPlatformHealth when the key is absent. -/
def defaultHealth : PlatformHealth :=
  { consecutiveFailures := 0, nextAllowedAt := 0, lastError := none,
    lastErrorAt := 0, lastSuccessAt := 0, lastLoggedAt := 0 }

/-- The machine-readable part of an upstream API error: err.response.status,
the parsed positive retry-after header in seconds when present and finite,
err.code uppercased, and err.message. -/
structure ApiError where
  status : Option Nat
  retryAfterSeconds : Option Nat
  code : String
  message : String
deriving DecidableEq

/-- Transient connection codes accepted by isRetryableApiError. -/
def transientCodes : List String :=
  ["ETIMEDOUT", "ECONNRESET", "ECONNABORTED", "EAI_AGAIN"]

/-- Shallow embedding of isRetryableApiError: HTTP 429, any 5xx status, or a
transient connection code. -/
def isRetryableApiError (e : ApiError) : Bool :=
  if e.status = some 429 then true
  else if (match e.status with
           | some s => decide (500 ≤ s)
           | none => false) then true
  else transientCodes.contains e.code

/-- Shallow embedding of computeBackoffMs(err, consecutiveFailures).  The
random jitter (source: Math.floor(Math.random() * 5000)) is a parameter. -/
def computeBackoffMs (e : ApiError) (consecutiveFailures jitter : Nat) :
    Nat :=
  let base0 : Nat := if e.status = some 429 then 60000 else 30000
  let base : Nat :=
    match e.retryAfterSeconds with
    | some sec => if 0 < sec then max base0 (sec * 1000) else base0
    | none => base0
  let exp := min 6 (consecutiveFailures - 1)
  let backoff := min 600000 (base * 2 ^ exp)
  backoff + jitter

/-- The effective base delay of computeBackoffMs, factored out for the
formula comparison: 60000 ms for an explicit rate-limit status, 30000 ms
otherwise, raised to a positive caller-supplied retry-after hint. -/
def backoffBaseMs (e : ApiError) : Nat :=
  let base0 : Nat := if e.status = some 429 then 60000 else 30000
  match e.retryAfterSeconds with
  | some sec => if 0 < sec then max base0 (sec * 1000) else base0
  | none => base0

/-- Backoff delay formula as the specification words it:,
min(capMs, baseMs times 2 to the min(6, consecutiveFailures - 1)) plus
jitter. -/
def specBackoffDelay (capMs baseMs consecutiveFailures jitter : Nat) : Nat :=
  min capMs (baseMs * 2 ^ min 6 (consecutiveFailures - 1)) + jitter

/-- Shallow embedding of setPlatformFailure(platformKey, err, contextLabel):
increments the failure count, computes a backoff deadline only for retryable
errors, records the error, and rate-limits its own logging.  Returns the
updated record and the retryable flag the source returns. -/
def setPlatformFailure (h : PlatformHealth) (e : ApiError)
    (contextLabel : String) (now jitter : Nat) : PlatformHealth × Bool :=
  let cf := h.consecutiveFailures + 1
  let retryable := isRetryableApiError e
  let nextAllowedAt :=
    if retryable then now + computeBackoffMs e cf jitter
    else h.nextAllowedAt
  let statusPart : String :=
    match e.status with
    | some s => if s ≠ 0 then "HTTP " ++ toString s ++ " " else ""
    | none => ""
  let lastError := contextLabel ++ ": " ++ statusPart ++ e.message
  let lastLoggedAt :=
    if 300000 < now - h.lastLoggedAt then now else h.lastLoggedAt
  ({ consecutiveFailures := cf, nextAllowedAt := nextAllowedAt,
     lastError := some lastError, lastErrorAt := now,
     lastSuccessAt := h.lastSuccessAt, lastLoggedAt := lastLoggedAt },
   retryable)

/-- Shallow embedding of setPlatformSuccess(platformKey). -/
def setPlatformSuccess (h : PlatformHealth) (now : Nat) : PlatformHealth :=
  { h with consecutiveFailures := 0, nextAllowedAt := 0,
           lastSuccessAt := now }

/-- The modelled health slice of db.state: the two per-platform records,
absent until first touched (startup only pre-provisions the active-message
maps, not the health records). -/
structure BotState where
  kickHealth : Option PlatformHealth
  twitchHealth : Option PlatformHealth
deriving DecidableEq

/-- Read accessor for the stored record of one platform. -/
def healthOf (st : BotState) : Platform → Option PlatformHealth
  | .kick => st.kickHealth
  | .twitch => st.twitchHealth

/-- Shallow embedding of getPlatformHealth(platformKey): the source statement
db.state[healthKey] ||= defaults installs the default record when the key is
missing, so the state document is returned alongside the record. -/
def getPlatformHealth (st : BotState) (p : Platform) :
    BotState × PlatformHealth :=
  match p with
  | .kick =>
    match st.kickHealth with
    | some h => (st, h)
    | none => ({ st with kickHealth := some defaultHealth }, defaultHealth)
  | .twitch =>
    match st.twitchHealth with
    | some h => (st, h)
    | none => ({ st with twitchHealth := some defaultHealth }, defaultHealth)

/-- Shallow embedding of platformInBackoff(platformKey): Boolean of
health.nextAllowedAt being non-zero and now being before it.  Because it goes
through getPlatformHealth, it also returns the possibly-extended state. -/
def platformInBackoff (st : BotState) (p : Platform) (now : Nat) :
    BotState × Bool :=
  let r := getPlatformHealth st p
  (r.1, r.2.nextAllowedAt ≠ 0 && now < r.2.nextAllowedAt)

/-! ## FiveM server-status backoff (the 5000 ms base / 120000 ms cap one) -/

/-- Shallow embedding of nextBackoffMs(consecutiveFailures) of the FiveM
module: base 5000 ms, cap 120000 ms, exponent min(consecutiveFailures, 6),
random jitter below 750 ms passed as a parameter. -/
def nextBackoffMs (consecutiveFailures jitter : Nat) : Nat :=
  min 120000 (5000 * 2 ^ min consecutiveFailures 6) + jitter

/-- Per-server health slice mutated by checkServer of the FiveM module. -/
structure FiveMServerState where
  consecutiveFailures : Nat
  nextAllowedAt : Nat
  lastError : Option String
  lastErrorAt : Nat
  lastSuccessAt : Nat
deriving DecidableEq

/-- Shallow embedding of the offline branch of checkServer: increment the
failure count, record the error, and set nextAllowedAt from nextBackoffMs
applied to the incremented count. -/
def recordServerOffline (st : FiveMServerState) (reason : String)
    (now jitter : Nat) : FiveMServerState :=
  let cf := st.consecutiveFailures + 1
  { st with consecutiveFailures := cf, lastError := some reason,
            lastErrorAt := now,
            nextAllowedAt := now + nextBackoffMs cf jitter }

/-! ## Failure sequences for the monotonicity claim -/

/-- One recordFailure invocation: the error, its context label, the wall
clock at the call, and the drawn jitter. -/
structure FailEvent where
  err : ApiError
  contextLabel : String
  now : Nat
  jitter : Nat
deriving DecidableEq

/-- State transformer of one recordFailure invocation. -/
def stepFailure (h : PlatformHealth) (ev : FailEvent) : PlatformHealth :=
  (setPlatformFailure h ev.err ev.contextLabel ev.now ev.jitter).1

/-- Every event of the sequence fires no earlier than the backoff deadline in
force when it fires: this is what the platformInBackoff gate guarantees at
every call site of setPlatformFailure. -/
def gatedSeq : PlatformHealth → List FailEvent → Bool
  | _, [] => true
  | h, ev :: rest =>
    decide (h.nextAllowedAt ≤ ev.now) && gatedSeq (stepFailure h ev) rest

/-- The sequence of health records produced by a failure sequence, starting
record included. -/
def healthTrace (h : PlatformHealth) : List FailEvent → List PlatformHealth
  | [] => [h]
  | ev :: rest => h :: healthTrace (stepFailure h ev) rest

/-- Adjacent nextAllowedAt values never decrease along a health trace. -/
def nonDecreasingNextAllowed : List PlatformHealth → Bool
  | [] => true
  | [_] => true
  | a :: b :: rest =>
    decide (a.nextAllowedAt ≤ b.nextAllowedAt) &&
      nonDecreasingNextAllowed (b :: rest)

/-! ## Match filter -/

/-- A compiled regular expression, kept abstract: its source pattern and
whether the case-insensitive flag was passed.  Both new RegExp(p, "i") and
the fixed fallback carry the flag. -/
structure CompiledPattern where
  source : String
  caseInsensitive : Bool
deriving DecidableEq

/-- The fixed default pattern of compileRegexOrFallback, the regex literal
matching the configured keyword with the case-insensitive flag. -/
def defaultKeywordPattern : CompiledPattern :=
  { source := "nox\\s*rp", caseInsensitive := true }

/-- Shallow embedding of compileRegexOrFallback(pattern, fallback).  Whether
new RegExp(p, "i") would throw is a pure property of the pattern string,
passed in as the compiles oracle. -/
def compileRegexOrFallback (compiles : String → Bool)
    (pattern : Option String) (fallback : CompiledPattern) :
    CompiledPattern :=
  let p := (pattern.getD "").trim
  if p = "" then fallback
  else if 200 < p.length then fallback
  else if compiles p then { source := p, caseInsensitive := true }
  else fallback

/-- Shallow embedding of the shouldHaveMessage predicate of checkKick: live,
and either no category restriction or the reported category id equals the
configured one, and the keyword regex accepts the title.  Regex matching is
the test oracle. -/
def shouldHaveMessage (test : CompiledPattern → String → Bool)
    (keyword : CompiledPattern) (isLive : Bool)
    (categoryId gtaCategoryId : Option Nat) (title : String) : Bool :=
  isLive && (gtaCategoryId.isNone || decide (categoryId = gtaCategoryId)) &&
    test keyword title

/-! ## Association-list and state-selection lemmas -/

theorem lookupA_eraseA_self (m : Active) (k : String) :
    lookupA (eraseA m k) k = none := by
  induction m with
  | nil => rfl
  | cons hd tl ih =>
    obtain ⟨k', v⟩ := hd
    by_cases h : k' = k
    · simpa [eraseA, h] using ih
    · simp [eraseA, lookupA, h, ih]

theorem lookupA_eraseA_ne (m : Active) (k k' : String) (h : k' ≠ k) :
    lookupA (eraseA m k) k' = lookupA m k' := by
  induction m with
  | nil => rfl
  | cons hd tl ih =>
    obtain ⟨k0, v⟩ := hd
    by_cases h0 : k0 = k
    · subst h0
      have : ¬(k0 = k') := fun e => h (e ▸ rfl)
      simp [eraseA, lookupA, this, ih]
    · by_cases h1 : k0 = k'
      · simp [eraseA, lookupA, h0, h1, h]
      · simp [eraseA, lookupA, h0, h1, ih]

theorem lookupA_insertA_self (m : Active) (k : String) (v : LifecycleEntry) :
    lookupA (insertA m k v) k = some v := by
  simp [insertA, lookupA]

theorem lookupA_insertA_ne (m : Active) (k k' : String) (v : LifecycleEntry)
    (h : k' ≠ k) : lookupA (insertA m k v) k' = lookupA m k' := by
  have : ¬(k = k') := fun e => h (e ▸ rfl)
  simp [insertA, lookupA, this, lookupA_eraseA_ne m k k' h]

theorem getActive_setActive_self (st : StreamState) (p : Platform)
    (a : Active) : getActive (setActive st p a) p = a := by
  cases p <;> rfl

theorem getActive_setActive_ne (st : StreamState) (p p' : Platform)
    (a : Active) (h : p' ≠ p) :
    getActive (setActive st p a) p' = getActive st p' := by
  cases p <;> cases p' <;> simp_all [getActive, setActive]

/-! ## Branch equations of the reconciler -/

theorem ensureLive_fresh_fail (st : StreamState) (p : Platform)
    (k sk : String) (ex : Bool) (del : Bool) (now : Nat)
    (hl : lookupA (getActive st p) k = none) :
    ensureLiveMessage st p k sk ex none del now =
      ⟨st, [(p, k, .create none)], false⟩ := by
  unfold ensureLiveMessage
  simp [hl]

theorem ensureLive_fresh_ok (st : StreamState) (p : Platform)
    (k sk : String) (ex : Bool) (m : Nat) (del : Bool) (now : Nat)
    (hl : lookupA (getActive st p) k = none) :
    ensureLiveMessage st p k sk ex (some m) del now =
      ⟨setActive st p (insertA (getActive st p) k ⟨m, sk, now⟩),
        [(p, k, .create (some m))], true⟩ := by
  unfold ensureLiveMessage
  simp [hl]

theorem ensureLive_same_exists (st : StreamState) (p : Platform)
    (k sk : String) (cr : Option Nat) (del : Bool) (now : Nat)
    (e : LifecycleEntry) (hl : lookupA (getActive st p) k = some e)
    (hs : e.sessionKey = sk) :
    ensureLiveMessage st p k sk true cr del now =
      ⟨st, [(p, k, .existsCheck e.messageId true)], false⟩ := by
  unfold ensureLiveMessage
  simp [hl, hs]

theorem ensureLive_heal_fail (st : StreamState) (p : Platform)
    (k sk : String) (del : Bool) (now : Nat)
    (e : LifecycleEntry) (hl : lookupA (getActive st p) k = some e)
    (hs : e.sessionKey = sk) :
    ensureLiveMessage st p k sk false none del now =
      ⟨setActive st p (eraseA (getActive st p) k),
        [(p, k, .existsCheck e.messageId false), (p, k, .create none)],
        false⟩ := by
  unfold ensureLiveMessage
  simp [hl, hs]

theorem ensureLive_heal_ok (st : StreamState) (p : Platform)
    (k sk : String) (m : Nat) (del : Bool) (now : Nat)
    (e : LifecycleEntry) (hl : lookupA (getActive st p) k = some e)
    (hs : e.sessionKey = sk) :
    ensureLiveMessage st p k sk false (some m) del now =
      ⟨setActive st p
          (insertA (eraseA (getActive st p) k) k ⟨m, sk, now⟩),
        [(p, k, .existsCheck e.messageId false),
         (p, k, .create (some m))], true⟩ := by
  unfold ensureLiveMessage
  simp [hl, hs]

theorem ensureLive_roll_fail (st : StreamState) (p : Platform)
    (k sk : String) (ex : Bool) (del : Bool) (now : Nat)
    (e : LifecycleEntry) (hl : lookupA (getActive st p) k = some e)
    (hs : e.sessionKey ≠ sk) :
    ensureLiveMessage st p k sk ex none del now =
      ⟨st, [(p, k, .deleteMsg e.messageId del), (p, k, .create none)],
        false⟩ := by
  unfold ensureLiveMessage
  simp [hl, hs]

theorem ensureLive_roll_ok (st : StreamState) (p : Platform)
    (k sk : String) (ex : Bool) (m : Nat) (del : Bool) (now : Nat)
    (e : LifecycleEntry) (hl : lookupA (getActive st p) k = some e)
    (hs : e.sessionKey ≠ sk) :
    ensureLiveMessage st p k sk ex (some m) del now =
      ⟨setActive st p (insertA (getActive st p) k ⟨m, sk, now⟩),
        [(p, k, .deleteMsg e.messageId del), (p, k, .create (some m))],
        true⟩ := by
  unfold ensureLiveMessage
  simp [hl, hs]

theorem ensureOffline_none (st : StreamState) (p : Platform) (k : String)
    (del : Bool) (hl : lookupA (getActive st p) k = none) :
    ensureOfflineMessageDeleted st p k del = ⟨st, [], false⟩ := by
  unfold ensureOfflineMessageDeleted
  simp [hl]

theorem ensureOffline_some (st : StreamState) (p : Platform) (k : String)
    (del : Bool) (e : LifecycleEntry)
    (hl : lookupA (getActive st p) k = some e) :
    ensureOfflineMessageDeleted st p k del =
      ⟨setActive st p (eraseA (getActive st p) k),
        [(p, k, .deleteMsg e.messageId del)], true⟩ := by
  unfold ensureOfflineMessageDeleted
  simp [hl]

/-! ## Trace lemmas -/

theorem callsFor_nil (p : Platform) (k : String) : callsFor p k [] = [] :=
  rfl

theorem callsFor_cons (p0 : Platform) (k0 : String) (p : Platform)
    (k : String) (c : EffCall) (rest : List TaggedCall) :
    callsFor p0 k0 ((p, k, c) :: rest) =
      if p = p0 ∧ k = k0 then c :: callsFor p0 k0 rest
      else callsFor p0 k0 rest := by
  by_cases h : p = p0 ∧ k = k0 <;> simp [callsFor, h]

theorem callsFor_append (p : Platform) (k : String)
    (a b : List TaggedCall) :
    callsFor p k (a ++ b) = callsFor p k a ++ callsFor p k b := by
  simp [callsFor]

theorem scanOutstanding_append (a b : List EffCall) :
    ∀ cur : Option Nat,
      scanOutstanding cur (a ++ b) =
        (scanOutstanding cur a).bind fun c => scanOutstanding c b := by
  induction a with
  | nil => intro cur; simp [scanOutstanding]
  | cons c rest ih =>
    intro cur
    cases c with
    | create r =>
      cases r with
      | none => simpa [scanOutstanding] using ih cur
      | some m =>
        by_cases h : cur = none
        · simpa [scanOutstanding, h] using ih (some m)
        · simp [scanOutstanding, h]
    | deleteMsg m res => simpa [scanOutstanding] using ih _
    | existsCheck m res => simpa [scanOutstanding] using ih _

/-- Invariant tying the mock-effector scan state for one entity to the
stored lifecycle entry: when a message is outstanding it is exactly the one
the stored entry points at. -/
def InvKey (cur : Option Nat) (entry : Option LifecycleEntry) : Prop :=
  ∀ m, cur = some m → ∃ e, entry = some e ∧ e.messageId = m

theorem invKey_none (entry : Option LifecycleEntry) : InvKey none entry := by
  intro m h
  cases h

theorem invKey_entry (e : LifecycleEntry) :
    InvKey (some e.messageId) (some e) := by
  intro m h
  exact ⟨e, rfl, Option.some.inj h⟩

theorem invKey_cases (cur : Option Nat) (e : LifecycleEntry)
    (h : InvKey cur (some e)) : cur = none ∨ cur = some e.messageId := by
  cases cur with
  | none => exact Or.inl rfl
  | some m =>
    obtain ⟨e', he, hm⟩ := h m rfl
    have he' : e' = e := (Option.some.inj he).symm
    subst he'
    exact Or.inr (by rw [hm])

theorem lookup_setActive_frame (st : StreamState) (p' : Platform)
    (a' : Active) (p : Platform) (k : String)
    (hcompat : p = p' → lookupA a' k = lookupA (getActive st p') k) :
    lookupA (getActive (setActive st p' a') p) k =
      lookupA (getActive st p) k := by
  by_cases hp : p = p'
  · subst hp
    rw [getActive_setActive_self]
    exact hcompat rfl
  · rw [getActive_setActive_ne _ _ _ _ hp]

/-- A reconciliation call for one entity leaves every other entity's stored
entry unchanged and issues no effector call tagged with the other entity. -/
theorem ensureLive_frame (st : StreamState) (p' : Platform)
    (k' sk : String) (ex : Bool) (cr : Option Nat) (del : Bool) (now : Nat)
    (p : Platform) (k : String) (hne : ¬(p' = p ∧ k' = k)) :
    lookupA (getActive
        (ensureLiveMessage st p' k' sk ex cr del now).state p) k =
      lookupA (getActive st p) k ∧
    callsFor p k (ensureLiveMessage st p' k' sk ex cr del now).calls =
      [] := by
  have hk : ∀ hp : p = p', ¬(k' = k) := fun hp hk => hne ⟨hp.symm, hk⟩
  have hins : ∀ (m0 : Active) (v : LifecycleEntry), p = p' →
      lookupA (insertA m0 k' v) k = lookupA m0 k := by
    intro m0 v hp
    exact lookupA_insertA_ne m0 k' k v (fun e => hk hp e.symm)
  have hera : ∀ m0 : Active, p = p' →
      lookupA (eraseA m0 k') k = lookupA m0 k := by
    intro m0 hp
    exact lookupA_eraseA_ne m0 k' k (fun e => hk hp e.symm)
  cases hl : lookupA (getActive st p') k' with
  | none =>
    cases cr with
    | none =>
      rw [ensureLive_fresh_fail st p' k' sk ex del now hl]
      exact ⟨rfl, by simp [callsFor_cons, callsFor_nil, hne]⟩
    | some m =>
      rw [ensureLive_fresh_ok st p' k' sk ex m del now hl]
      refine ⟨lookup_setActive_frame st p' _ p k ?_, by
        simp [callsFor_cons, callsFor_nil, hne]⟩
      intro hp
      exact hins _ _ hp
  | some e =>
    by_cases hs : e.sessionKey = sk
    · cases ex with
      | true =>
        rw [ensureLive_same_exists st p' k' sk cr del now e hl hs]
        exact ⟨rfl, by simp [callsFor_cons, callsFor_nil, hne]⟩
      | false =>
        cases cr with
        | none =>
          rw [ensureLive_heal_fail st p' k' sk del now e hl hs]
          refine ⟨lookup_setActive_frame st p' _ p k ?_, by
            simp [callsFor_cons, callsFor_nil, hne]⟩
          intro hp
          exact hera _ hp
        | some m =>
          rw [ensureLive_heal_ok st p' k' sk m del now e hl hs]
          refine ⟨lookup_setActive_frame st p' _ p k ?_, by
            simp [callsFor_cons, callsFor_nil, hne]⟩
          intro hp
          rw [hins _ _ hp]
          exact hera _ hp
    · cases cr with
      | none =>
        rw [ensureLive_roll_fail st p' k' sk ex del now e hl hs]
        exact ⟨rfl, by simp [callsFor_cons, callsFor_nil, hne]⟩
      | some m =>
        rw [ensureLive_roll_ok st p' k' sk ex m del now e hl hs]
        refine ⟨lookup_setActive_frame st p' _ p k ?_, by
          simp [callsFor_cons, callsFor_nil, hne]⟩
        intro hp
        exact hins _ _ hp

theorem ensureOffline_frame (st : StreamState) (p' : Platform) (k' : String)
    (del : Bool) (p : Platform) (k : String) (hne : ¬(p' = p ∧ k' = k)) :
    lookupA (getActive
        (ensureOfflineMessageDeleted st p' k' del).state p) k =
      lookupA (getActive st p) k ∧
    callsFor p k (ensureOfflineMessageDeleted st p' k' del).calls = [] := by
  have hk : ∀ hp : p = p', ¬(k' = k) := fun hp hk => hne ⟨hp.symm, hk⟩
  cases hl : lookupA (getActive st p') k' with
  | none =>
    rw [ensureOffline_none st p' k' del hl]
    exact ⟨rfl, rfl⟩
  | some e =>
    rw [ensureOffline_some st p' k' del e hl]
    refine ⟨lookup_setActive_frame st p' _ p k ?_, by
      simp [callsFor_cons, callsFor_nil, hne]⟩
    intro hp
    exact lookupA_eraseA_ne _ k' k (fun e0 => hk hp e0.symm)

/-- After the offline reconciliation of an entity its stored entry is
always absent. -/
theorem ensureOffline_clears (st : StreamState) (p : Platform) (k : String)
    (del : Bool) :
    lookupA (getActive
        (ensureOfflineMessageDeleted st p k del).state p) k = none := by
  cases hl : lookupA (getActive st p) k with
  | none =>
    rw [ensureOffline_none st p k del hl]
    exact hl
  | some e =>
    rw [ensureOffline_some st p k del e hl]
    rw [getActive_setActive_self]
    exact lookupA_eraseA_self _ k

theorem runStep_live (st : StreamState) (p : Platform) (k sk : String)
    (ex : Bool) (cr : Option Nat) (del : Bool) (now : Nat) :
    runStep st (.live p k sk ex cr del now) =
      ensureLiveMessage st p k sk ex cr del now :=
  rfl

theorem runStep_offline (st : StreamState) (p : Platform) (k : String)
    (del : Bool) :
    runStep st (.offline p k del) = ensureOfflineMessageDeleted st p k del :=
  rfl

/-- One reconciliation step preserves the mock-effector invariant for every
entity: the scan of the entity's effector calls never sees a create while a
message is outstanding, and the outstanding message stays the stored one. -/
theorem runStep_inv (st : StreamState) (s : Step) (p : Platform)
    (k : String) (cur : Option Nat)
    (h : InvKey cur (lookupA (getActive st p) k)) :
    ∃ cur', scanOutstanding cur (callsFor p k (runStep st s).calls) =
        some cur' ∧
      InvKey cur' (lookupA (getActive (runStep st s).state p) k) := by
  cases s with
  | live p' k' sk ex cr del now =>
    rw [runStep_live]
    by_cases htgt : p' = p ∧ k' = k
    · obtain ⟨hp, hk⟩ := htgt
      subst hp
      subst hk
      cases hl : lookupA (getActive st p') k' with
      | none =>
        have hcur : cur = none := by
          cases cur with
          | none => rfl
          | some m =>
            obtain ⟨e, he, _⟩ := h m rfl
            rw [hl] at he
            cases he
        subst hcur
        cases cr with
        | none =>
          rw [ensureLive_fresh_fail st p' k' sk ex del now hl]
          refine ⟨none, ?_, ?_⟩
          · simp [callsFor_cons, callsFor_nil, scanOutstanding]
          · exact invKey_none _
        | some m =>
          rw [ensureLive_fresh_ok st p' k' sk ex m del now hl]
          refine ⟨some m, ?_, ?_⟩
          · simp [callsFor_cons, callsFor_nil, scanOutstanding]
          · rw [getActive_setActive_self, lookupA_insertA_self]
            exact invKey_entry ⟨m, sk, now⟩
      | some e =>
        have h' : InvKey cur (some e) := hl ▸ h
        by_cases hs : e.sessionKey = sk
        · cases ex with
          | true =>
            rw [ensureLive_same_exists st p' k' sk cr del now e hl hs]
            refine ⟨cur, ?_, ?_⟩
            · simp [callsFor_cons, callsFor_nil, scanOutstanding]
            · rw [hl]
              exact h'
          | false =>
            cases cr with
            | none =>
              rw [ensureLive_heal_fail st p' k' sk del now e hl hs]
              refine ⟨none, ?_, ?_⟩
              · rcases invKey_cases cur e h' with hcur | hcur <;>
                  simp [callsFor_cons, callsFor_nil, scanOutstanding, hcur]
              · rw [getActive_setActive_self, lookupA_eraseA_self]
                exact invKey_none _
            | some m =>
              rw [ensureLive_heal_ok st p' k' sk m del now e hl hs]
              refine ⟨some m, ?_, ?_⟩
              · rcases invKey_cases cur e h' with hcur | hcur <;>
                  simp [callsFor_cons, callsFor_nil, scanOutstanding, hcur]
              · rw [getActive_setActive_self, lookupA_insertA_self]
                exact invKey_entry ⟨m, sk, now⟩
        · cases cr with
          | none =>
            rw [ensureLive_roll_fail st p' k' sk ex del now e hl hs]
            refine ⟨none, ?_, ?_⟩
            · rcases invKey_cases cur e h' with hcur | hcur <;>
                simp [callsFor_cons, callsFor_nil, scanOutstanding, hcur]
            · exact invKey_none _
          | some m =>
            rw [ensureLive_roll_ok st p' k' sk ex m del now e hl hs]
            refine ⟨some m, ?_, ?_⟩
            · rcases invKey_cases cur e h' with hcur | hcur <;>
                simp [callsFor_cons, callsFor_nil, scanOutstanding, hcur]
            · rw [getActive_setActive_self, lookupA_insertA_self]
              exact invKey_entry ⟨m, sk, now⟩
    · obtain ⟨hfr1, hfr2⟩ :=
        ensureLive_frame st p' k' sk ex cr del now p k htgt
      refine ⟨cur, ?_, ?_⟩
      · rw [hfr2]
        rfl
      · rw [hfr1]
        exact h
  | offline p' k' del =>
    rw [runStep_offline]
    by_cases htgt : p' = p ∧ k' = k
    · obtain ⟨hp, hk⟩ := htgt
      subst hp
      subst hk
      cases hl : lookupA (getActive st p') k' with
      | none =>
        rw [ensureOffline_none st p' k' del hl]
        exact ⟨cur, rfl, h⟩
      | some e =>
        have h' : InvKey cur (some e) := hl ▸ h
        rw [ensureOffline_some st p' k' del e hl]
        refine ⟨none, ?_, ?_⟩
        · rcases invKey_cases cur e h' with hcur | hcur <;>
            simp [callsFor_cons, callsFor_nil, scanOutstanding, hcur]
        · rw [getActive_setActive_self, lookupA_eraseA_self]
          exact invKey_none _
    · obtain ⟨hfr1, hfr2⟩ := ensureOffline_frame st p' k' del p k htgt
      refine ⟨cur, ?_, ?_⟩
      · rw [hfr2]
        rfl
      · rw [hfr1]
        exact h

theorem runSteps_cons (st : StreamState) (s : Step) (rest : List Step) :
    runSteps st (s :: rest) =
      ((runSteps (runStep st s).state rest).1,
        (runStep st s).calls ++ (runSteps (runStep st s).state rest).2) :=
  rfl

/-- Sequence version of the mock-effector invariant. -/
theorem runSteps_inv (steps : List Step) :
    ∀ (st : StreamState) (p : Platform) (k : String) (cur : Option Nat),
      InvKey cur (lookupA (getActive st p) k) →
      ∃ cur', scanOutstanding cur (callsFor p k (runSteps st steps).2) =
          some cur' ∧
        InvKey cur' (lookupA (getActive (runSteps st steps).1 p) k) := by
  induction steps with
  | nil =>
    intro st p k cur h
    exact ⟨cur, rfl, h⟩
  | cons s rest ih =>
    intro st p k cur h
    obtain ⟨cur1, hscan1, hinv1⟩ := runStep_inv st s p k cur h
    obtain ⟨cur2, hscan2, hinv2⟩ := ih (runStep st s).state p k cur1 hinv1
    refine ⟨cur2, ?_, ?_⟩
    · rw [runSteps_cons, callsFor_append, scanOutstanding_append, hscan1]
      exact hscan2
    · rw [runSteps_cons]
      exact hinv2

/-- When the final state stores an entry for an entity, either some step
concerned the entity and the most recent such step was a qualifying one, or
no step concerned it and the entry was already there initially. -/
theorem runSteps_entry_lastQual (steps : List Step) :
    ∀ (st : StreamState) (p : Platform) (k : String),
      (lookupA (getActive (runSteps st steps).1 p) k).isSome = true →
      lastQualFor p k steps = some true ∨
        (lastQualFor p k steps = none ∧
          (lookupA (getActive st p) k).isSome = true) := by
  induction steps with
  | nil =>
    intro st p k h
    exact Or.inr ⟨rfl, h⟩
  | cons s rest ih =>
    intro st p k h
    rw [runSteps_cons] at h
    rcases ih (runStep st s).state p k h with hq | ⟨hnone, hset1⟩
    · left
      simp [lastQualFor, hq]
    · cases s with
      | live p' k' sk ex cr del now =>
        by_cases htgt : p' = p ∧ k' = k
        · left
          simp [lastQualFor, hnone, qualOf, htgt]
        · right
          obtain ⟨hfr1, _⟩ :=
            ensureLive_frame st p' k' sk ex cr del now p k htgt
          rw [runStep_live, hfr1] at hset1
          exact ⟨by simp [lastQualFor, hnone, qualOf, htgt], hset1⟩
      | offline p' k' del =>
        by_cases htgt : p' = p ∧ k' = k
        · obtain ⟨hp, hk⟩ := htgt
          subst hp
          subst hk
          rw [runStep_offline, ensureOffline_clears st p' k' del] at hset1
          cases hset1
        · right
          obtain ⟨hfr1, _⟩ := ensureOffline_frame st p' k' del p k htgt
          rw [runStep_offline, hfr1] at hset1
          exact ⟨by simp [lastQualFor, hnone, qualOf, htgt], hset1⟩

/-- The empty initial state: no active-message entries for either platform
(the startup code pre-provisions both maps as empty objects). -/
def initialStreamState : StreamState := ⟨[], []⟩

/-- Number of create attempts among an entity's effector calls. -/
def countCreates (calls : List TaggedCall) : Nat :=
  (calls.filter fun c =>
    match c.2.2 with
    | .create _ => true
    | _ => false).length

/-- Number of delete attempts among an entity's effector calls. -/
def countDeletes (calls : List TaggedCall) : Nat :=
  (calls.filter fun c =>
    match c.2.2 with
    | .deleteMsg _ _ => true
    | _ => false).length

/-- Number of existence checks among an entity's effector calls. -/
def countExistsChecks (calls : List TaggedCall) : Nat :=
  (calls.filter fun c =>
    match c.2.2 with
    | .existsCheck _ _ => true
    | _ => false).length

/-! ## Claim theorems -/

/-- C1: at-most-one live handle.  Starting from the empty state, after any
sequence of reconciliation steps (ensureLiveMessage on qualifying cycles,
ensureOfflineMessageDeleted on non-qualifying ones), for every entity: the
mock-effector scan of that entity's calls succeeds, i.e. every successful
create was preceded, since the previous create, by a delete call on the old
handle or a confirmed-absent exists check, so at most one created message is
outstanding at any point; and the stored messageHandle is set only if the
most recent qualification result for the entity was true. -/
theorem at_most_one_live_handle (steps : List Step) (p : Platform)
    (k : String) :
    (scanOutstanding none
        (callsFor p k (runSteps initialStreamState steps).2)).isSome =
      true ∧
    ((lookupA (getActive (runSteps initialStreamState steps).1 p) k).isSome =
        true →
      lastQualFor p k steps = some true) := by
  constructor
  · obtain ⟨cur', hscan, _⟩ :=
      runSteps_inv steps initialStreamState p k none (invKey_none _)
    rw [hscan]
    rfl
  · intro hset
    rcases runSteps_entry_lastQual steps initialStreamState p k hset with
      hq | ⟨_, hinit⟩
    · exact hq
    · cases p <;> simp [initialStreamState, getActive, lookupA] at hinit

/-- Witness for C1 at a concrete two-step run. -/
theorem at_most_one_live_handle_witness :
    (scanOutstanding none
        (callsFor .kick "alpha"
          (runSteps initialStreamState
            [.live .kick "alpha" "s1" false (some 1) true 0,
             .live .kick "alpha" "s2" false (some 2) true 5]).2)).isSome =
      true ∧
    lastQualFor .kick "alpha"
        [.live .kick "alpha" "s1" false (some 1) true 0,
         .live .kick "alpha" "s2" false (some 2) true 5] = some true :=
  ⟨(at_most_one_live_handle
      [.live .kick "alpha" "s1" false (some 1) true 0,
       .live .kick "alpha" "s2" false (some 2) true 5] .kick "alpha").1,
   (at_most_one_live_handle
      [.live .kick "alpha" "s1" false (some 1) true 0,
       .live .kick "alpha" "s2" false (some 2) true 5] .kick "alpha").2
     (by decide)⟩

/-- C3: session rollover ordering.  When the stored entry's session key
differs from the new qualifying snapshot's session key, the effector call
list is exactly the delete of the old handle followed by the create, so the
delete is issued strictly before the create, and the create is attempted for
every delete outcome and every create outcome. -/
theorem session_rollover_ordering (st : StreamState) (p : Platform)
    (k sk : String) (ex : Bool) (cr : Option Nat) (del : Bool) (now : Nat)
    (e : LifecycleEntry) (hl : lookupA (getActive st p) k = some e)
    (hs : e.sessionKey ≠ sk) :
    (ensureLiveMessage st p k sk ex cr del now).calls =
      [(p, k, .deleteMsg e.messageId del), (p, k, .create cr)] := by
  cases cr with
  | none => rw [ensureLive_roll_fail st p k sk ex del now e hl hs]
  | some m => rw [ensureLive_roll_ok st p k sk ex m del now e hl hs]

/-- Witness for C3: a concrete rollover with a failed delete still attempts
the create afterwards. -/
theorem session_rollover_ordering_witness :
    (ensureLiveMessage ⟨[("alpha", ⟨7, "s1", 0⟩)], []⟩ .kick "alpha" "s2"
        true (some 9) false 5).calls =
      [(.kick, "alpha", .deleteMsg 7 false),
       (.kick, "alpha", .create (some 9))] :=
  session_rollover_ordering ⟨[("alpha", ⟨7, "s1", 0⟩)], []⟩ .kick "alpha"
    "s2" true (some 9) false 5 ⟨7, "s1", 0⟩ (by decide) (by decide)

/-- C4: self-healing on manual deletion.  With an entry whose session key
equals the snapshot's but whose message the exists check reports absent, the
same cycle clears the stale entry, issues exactly one create, and on create
success stores the new handle with the session key and timestamp and reports
changed. -/
theorem self_healing_on_manual_deletion (st : StreamState) (p : Platform)
    (k sk : String) (m : Nat) (del : Bool) (now : Nat) (e : LifecycleEntry)
    (hl : lookupA (getActive st p) k = some e) (hs : e.sessionKey = sk) :
    (ensureLiveMessage st p k sk false (some m) del now).calls =
      [(p, k, .existsCheck e.messageId false), (p, k, .create (some m))] ∧
    countCreates (ensureLiveMessage st p k sk false (some m) del now).calls =
      1 ∧
    countDeletes (ensureLiveMessage st p k sk false (some m) del now).calls =
      0 ∧
    lookupA (getActive
        (ensureLiveMessage st p k sk false (some m) del now).state p) k =
      some ⟨m, sk, now⟩ ∧
    (ensureLiveMessage st p k sk false (some m) del now).changed = true := by
  rw [ensureLive_heal_ok st p k sk m del now e hl hs]
  refine ⟨rfl, rfl, rfl, ?_, rfl⟩
  rw [getActive_setActive_self, lookupA_insertA_self]

/-- Witness for C4 at a concrete state. -/
theorem self_healing_on_manual_deletion_witness :
    (ensureLiveMessage ⟨[], [("beta", ⟨3, "s1", 0⟩)]⟩ .twitch "beta" "s1"
        false (some 4) true 9).calls =
      [(.twitch, "beta", .existsCheck 3 false),
       (.twitch, "beta", .create (some 4))] ∧
    lookupA (getActive
        (ensureLiveMessage ⟨[], [("beta", ⟨3, "s1", 0⟩)]⟩ .twitch "beta"
          "s1" false (some 4) true 9).state .twitch) "beta" =
      some ⟨4, "s1", 9⟩ :=
  ⟨(self_healing_on_manual_deletion ⟨[], [("beta", ⟨3, "s1", 0⟩)]⟩ .twitch
      "beta" "s1" 4 true 9 ⟨3, "s1", 0⟩ (by decide) rfl).1,
   (self_healing_on_manual_deletion ⟨[], [("beta", ⟨3, "s1", 0⟩)]⟩ .twitch
      "beta" "s1" 4 true 9 ⟨3, "s1", 0⟩ (by decide) rfl).2.2.2.1⟩

/-- C7 counterexample: an entity in Live-Tracked state whose message still
exists.  Rerunning reconciliation returns changed = false and leaves the
entry alone, but it does issue one effector-interface call: the exists()
check on the stored handle.  The effector call list is non-empty, refuting
"zero effector calls". -/
theorem idempotent_noop_counterexample :
    (ensureLiveMessage ⟨[("alpha", ⟨5, "s1", 0⟩)], []⟩ .kick "alpha" "s1"
        true none false 9).calls =
      [(.kick, "alpha", .existsCheck 5 true)] ∧
    (ensureLiveMessage ⟨[("alpha", ⟨5, "s1", 0⟩)], []⟩ .kick "alpha" "s1"
        true none false 9).calls ≠ [] := by
  decide

/-- C7 (amended): idempotent no-op up to the lazy existence check.  With a
stored handle, an unchanged session key, and the message still existing,
reconciliation issues zero mutating effector calls (no create, no delete),
exactly one exists check, returns changed = false, and leaves the state
document unchanged. -/
theorem idempotent_noop (st : StreamState) (p : Platform) (k sk : String)
    (cr : Option Nat) (del : Bool) (now : Nat) (e : LifecycleEntry)
    (hl : lookupA (getActive st p) k = some e) (hs : e.sessionKey = sk) :
    (ensureLiveMessage st p k sk true cr del now).state = st ∧
    (ensureLiveMessage st p k sk true cr del now).changed = false ∧
    (ensureLiveMessage st p k sk true cr del now).calls =
      [(p, k, .existsCheck e.messageId true)] ∧
    countCreates (ensureLiveMessage st p k sk true cr del now).calls = 0 ∧
    countDeletes (ensureLiveMessage st p k sk true cr del now).calls = 0 ∧
    countExistsChecks (ensureLiveMessage st p k sk true cr del now).calls =
      1 := by
  rw [ensureLive_same_exists st p k sk cr del now e hl hs]
  exact ⟨rfl, rfl, rfl, rfl, rfl, rfl⟩

/-- Witness for the amended C7 at a concrete state. -/
theorem idempotent_noop_witness :
    (ensureLiveMessage ⟨[("gamma", ⟨6, "s9", 2⟩)], []⟩ .kick "gamma" "s9"
        true (some 8) true 11).state = ⟨[("gamma", ⟨6, "s9", 2⟩)], []⟩ ∧
    (ensureLiveMessage ⟨[("gamma", ⟨6, "s9", 2⟩)], []⟩ .kick "gamma" "s9"
        true (some 8) true 11).changed = false :=
  ⟨(idempotent_noop ⟨[("gamma", ⟨6, "s9", 2⟩)], []⟩ .kick "gamma" "s9"
      (some 8) true 11 ⟨6, "s9", 2⟩ (by decide) rfl).1,
   (idempotent_noop ⟨[("gamma", ⟨6, "s9", 2⟩)], []⟩ .kick "gamma" "s9"
      (some 8) true 11 ⟨6, "s9", 2⟩ (by decide) rfl).2.1⟩

/-- C10 counterexample: after a rollover whose create failed, the stale
entry is indeed kept, but on the next cycle with the new session key still
qualifying it is replaced through the rollover delete-then-create path with
no exists() check at all, refuting "only cleared or replaced ... via the
exists() check". -/
theorem rollover_failure_counterexample :
    (ensureLiveMessage ⟨[("alpha", ⟨7, "s1", 0⟩)], []⟩ .kick "alpha" "s2"
        true none false 1).changed = false ∧
    lookupA (getActive
        (ensureLiveMessage ⟨[("alpha", ⟨7, "s1", 0⟩)], []⟩ .kick "alpha"
          "s2" true none false 1).state .kick) "alpha" =
      some ⟨7, "s1", 0⟩ ∧
    (ensureLiveMessage
        (ensureLiveMessage ⟨[("alpha", ⟨7, "s1", 0⟩)], []⟩ .kick "alpha"
          "s2" true none false 1).state .kick "alpha" "s2" true (some 8)
        false 2).calls =
      [(.kick, "alpha", .deleteMsg 7 false),
       (.kick, "alpha", .create (some 8))] ∧
    countExistsChecks
        (ensureLiveMessage
          (ensureLiveMessage ⟨[("alpha", ⟨7, "s1", 0⟩)], []⟩ .kick "alpha"
            "s2" true none false 1).state .kick "alpha" "s2" true (some 8)
          false 2).calls = 0 ∧
    lookupA (getActive
        (ensureLiveMessage
          (ensureLiveMessage ⟨[("alpha", ⟨7, "s1", 0⟩)], []⟩ .kick "alpha"
            "s2" true none false 1).state .kick "alpha" "s2" true (some 8)
          false 2).state .kick) "alpha" =
      some ⟨8, "s2", 2⟩ := by
  decide

/-- C10 (amended): when the rollover delete is attempted but the create
fails, ensureLiveMessage returns false and leaves the state document — and
so the stored entry with its old handle and old session key — exactly as
before; the stale entry is cleared or replaced only on a later cycle, via
the rollover delete-then-create path if a differing session key qualifies
again, via the exists() check if the stored session key recurs, or via the
offline deletion path if the entity stops qualifying. -/
theorem rollover_create_failure_keeps_entry (st : StreamState)
    (p : Platform) (k sk : String) (ex : Bool) (del : Bool) (now : Nat)
    (e : LifecycleEntry) (hl : lookupA (getActive st p) k = some e)
    (hs : e.sessionKey ≠ sk) :
    (ensureLiveMessage st p k sk ex none del now).changed = false ∧
    (ensureLiveMessage st p k sk ex none del now).state = st ∧
    lookupA (getActive (ensureLiveMessage st p k sk ex none del now).state
        p) k = some e := by
  rw [ensureLive_roll_fail st p k sk ex del now e hl hs]
  exact ⟨rfl, rfl, hl⟩

/-- Witness for the amended C10 at a concrete state. -/
theorem rollover_create_failure_keeps_entry_witness :
    (ensureLiveMessage ⟨[("alpha", ⟨7, "s1", 0⟩)], []⟩ .kick "alpha" "s2"
        false none true 4).changed = false ∧
    lookupA (getActive
        (ensureLiveMessage ⟨[("alpha", ⟨7, "s1", 0⟩)], []⟩ .kick "alpha"
          "s2" false none true 4).state .kick) "alpha" =
      some ⟨7, "s1", 0⟩ :=
  ⟨(rollover_create_failure_keeps_entry ⟨[("alpha", ⟨7, "s1", 0⟩)], []⟩
      .kick "alpha" "s2" false true 4 ⟨7, "s1", 0⟩ (by decide)
      (by decide)).1,
   (rollover_create_failure_keeps_entry ⟨[("alpha", ⟨7, "s1", 0⟩)], []⟩
      .kick "alpha" "s2" false true 4 ⟨7, "s1", 0⟩ (by decide)
      (by decide)).2.2⟩

/-- C2 counterexample: a fatal error (HTTP 404: not a rate limit, not 5xx,
no transient code) still increments consecutiveFailures, but receives no
back-off timestamp: nextAllowedAt stays 0 instead of now + delay. -/
theorem recordFailure_fatal_counterexample :
    isRetryableApiError ⟨some 404, none, "", "Not Found"⟩ = false ∧
    (setPlatformFailure defaultHealth ⟨some 404, none, "", "Not Found"⟩
        "kick" 1000 0).1.consecutiveFailures = 1 ∧
    (setPlatformFailure defaultHealth ⟨some 404, none, "", "Not Found"⟩
        "kick" 1000 0).1.nextAllowedAt = 0 ∧
    (setPlatformFailure defaultHealth ⟨some 404, none, "", "Not Found"⟩
        "kick" 1000 0).1.nextAllowedAt ≠
      1000 + computeBackoffMs ⟨some 404, none, "", "Not Found"⟩ 1 0 := by
  decide

/-- C2 (amended): recordFailure always increments consecutiveFailures and
records lastError/lastErrorAt, and sets notBeforeTimestamp = now + delay
only when the error is classified retryable (rate-limit, 5xx, or transient
connection signal); for a fatal error notBeforeTimestamp is left unchanged,
so fatal errors do not receive a back-off timestamp. -/
theorem recordFailure_updates (h : PlatformHealth) (e : ApiError)
    (ctx : String) (now jitter : Nat) :
    (setPlatformFailure h e ctx now jitter).1.consecutiveFailures =
      h.consecutiveFailures + 1 ∧
    (setPlatformFailure h e ctx now jitter).1.lastErrorAt = now ∧
    (setPlatformFailure h e ctx now jitter).1.lastError.isSome = true ∧
    (setPlatformFailure h e ctx now jitter).2 = isRetryableApiError e ∧
    (isRetryableApiError e = true →
      (setPlatformFailure h e ctx now jitter).1.nextAllowedAt =
        now + computeBackoffMs e (h.consecutiveFailures + 1) jitter) ∧
    (isRetryableApiError e = false →
      (setPlatformFailure h e ctx now jitter).1.nextAllowedAt =
        h.nextAllowedAt) := by
  refine ⟨rfl, rfl, rfl, rfl, ?_, ?_⟩ <;>
    intro hr <;> simp [setPlatformFailure, hr]

/-- Witness for the amended C2 at both a retryable and a fatal error. -/
theorem recordFailure_updates_witness :
    (setPlatformFailure defaultHealth ⟨some 503, none, "", "oops"⟩ "kick"
        1000 3).1.nextAllowedAt =
      1000 + computeBackoffMs ⟨some 503, none, "", "oops"⟩ 1 3 ∧
    (setPlatformFailure defaultHealth ⟨some 404, none, "", "gone"⟩ "kick"
        1000 3).1.nextAllowedAt = defaultHealth.nextAllowedAt :=
  ⟨(recordFailure_updates defaultHealth ⟨some 503, none, "", "oops"⟩ "kick"
      1000 3).2.2.2.2.1 (by decide),
   (recordFailure_updates defaultHealth ⟨some 404, none, "", "gone"⟩ "kick"
      1000 3).2.2.2.2.2 (by decide)⟩

/-- C5 counterexample: with base 5000 ms and cap 120000 ms, the server
backoff nextBackoffMs uses exponent min(consecutiveFailures, 6) on the
already-incremented count, so the first three deterministic delays are
10000, 20000, 40000 ms — not 5000, 10000, 20000 as the claimed formula
min(cap, base * 2 ^ min(6, failures - 1)) would give. -/
theorem backoff_formula_counterexample :
    nextBackoffMs 1 0 = 10000 ∧ nextBackoffMs 2 0 = 20000 ∧
    nextBackoffMs 3 0 = 40000 ∧
    specBackoffDelay 120000 5000 1 0 = 5000 ∧
    nextBackoffMs 1 0 ≠ specBackoffDelay 120000 5000 1 0 := by
  decide

/-- C5 (amended): the platform backoff computeBackoffMs does equal
min(600000, baseMs(error) * 2 ^ min(6, consecutiveFailures - 1)) + jitter,
with baseMs 60000 for rate-limit-signalling errors (raised further to any
caller-supplied positive retry-after hint) and 30000 for generic failures;
the separate server backoff with base 5000 ms and cap 120000 ms uses
exponent min(consecutiveFailures, 6) on the post-increment count, so three
consecutive failures from a clean state yield notBeforeTimestamp - now
delays of 10000, 20000 and 40000 ms (each plus jitter), not 5000, 10000,
20000. -/
theorem backoff_delay_arithmetic :
    (∀ (e : ApiError) (cf j : Nat),
      computeBackoffMs e cf j =
        specBackoffDelay 600000 (backoffBaseMs e) cf j) ∧
    (∀ e : ApiError, e.status = some 429 → 60000 ≤ backoffBaseMs e) ∧
    (∀ e : ApiError, e.status ≠ some 429 → e.retryAfterSeconds = none →
      backoffBaseMs e = 30000) ∧
    (∀ (e : ApiError) (s : Nat), e.retryAfterSeconds = some s → 0 < s →
      s * 1000 ≤ backoffBaseMs e) ∧
    (∀ (st : FiveMServerState) (r1 r2 r3 : String)
        (n1 n2 n3 j1 j2 j3 : Nat), st.consecutiveFailures = 0 →
      (recordServerOffline st r1 n1 j1).nextAllowedAt = n1 + (10000 + j1) ∧
      (recordServerOffline (recordServerOffline st r1 n1 j1) r2 n2
          j2).nextAllowedAt = n2 + (20000 + j2) ∧
      (recordServerOffline (recordServerOffline
          (recordServerOffline st r1 n1 j1) r2 n2 j2) r3 n3
          j3).nextAllowedAt = n3 + (40000 + j3)) := by
  refine ⟨fun e cf j => rfl, ?_, ?_, ?_, ?_⟩
  · intro e he
    unfold backoffBaseMs
    rw [if_pos he]
    cases hr : e.retryAfterSeconds with
    | none => exact le_refl _
    | some sec =>
      by_cases hsec : 0 < sec
      · simp only [if_pos hsec]
        exact le_max_left _ _
      · simp only [if_neg hsec]
        exact le_refl _
  · intro e he hr
    simp [backoffBaseMs, he, hr]
  · intro e s hr hs
    unfold backoffBaseMs
    rw [hr]
    simp only [if_pos hs]
    exact le_max_right _ _
  · intro st r1 r2 r3 n1 n2 n3 j1 j2 j3 h0
    refine ⟨?_, ?_, ?_⟩ <;>
      simp [recordServerOffline, nextBackoffMs, h0]

/-- Witness for the amended C5 at concrete errors and a concrete failure
chain. -/
theorem backoff_delay_arithmetic_witness :
    computeBackoffMs ⟨some 429, some 120, "", ""⟩ 3 100 =
      specBackoffDelay 600000 (backoffBaseMs ⟨some 429, some 120, "", ""⟩)
        3 100 ∧
    60000 ≤ backoffBaseMs ⟨some 429, none, "", ""⟩ ∧
    backoffBaseMs ⟨some 500, none, "", ""⟩ = 30000 ∧
    (recordServerOffline ⟨0, 0, none, 0, 0⟩ "offline" 50 7).nextAllowedAt =
      50 + (10000 + 7) :=
  ⟨backoff_delay_arithmetic.1 ⟨some 429, some 120, "", ""⟩ 3 100,
   backoff_delay_arithmetic.2.1 ⟨some 429, none, "", ""⟩ rfl,
   backoff_delay_arithmetic.2.2.1 ⟨some 500, none, "", ""⟩ (by decide) rfl,
   (backoff_delay_arithmetic.2.2.2.2 ⟨0, 0, none, 0, 0⟩ "offline" "" ""
      50 0 0 7 0 0 rfl).1⟩

theorem stepFailure_next_ge (h : PlatformHealth) (ev : FailEvent)
    (hg : h.nextAllowedAt ≤ ev.now) :
    h.nextAllowedAt ≤ (stepFailure h ev).nextAllowedAt := by
  unfold stepFailure setPlatformFailure
  by_cases hr : isRetryableApiError ev.err
  · simp only [hr, if_true]
    exact le_trans hg (Nat.le_add_right _ _)
  · simp only [hr, if_false]
    exact le_refl _

theorem healthTrace_cons (h : PlatformHealth) (ev : FailEvent)
    (rest : List FailEvent) :
    healthTrace h (ev :: rest) = h :: healthTrace (stepFailure h ev) rest :=
  rfl

theorem healthTrace_head (h : PlatformHealth) (evs : List FailEvent) :
    ∃ t, healthTrace h evs = h :: t := by
  cases evs <;> exact ⟨_, rfl⟩

/-- C6 counterexample: without the gating precondition, nextAllowedAt can
decrease within a single failure streak.  A rate-limited failure with a
600 s retry-after hint at time 0 sets nextAllowedAt to 600000; a plain 500
failure one millisecond later (time strictly increasing, no intervening
success) resets it to 60001. -/
theorem backoff_monotonicity_counterexample :
    (stepFailure defaultHealth
        ⟨⟨some 429, some 600, "", "rate limited"⟩, "kick", 0,
          0⟩).nextAllowedAt = 600000 ∧
    (stepFailure
        (stepFailure defaultHealth
          ⟨⟨some 429, some 600, "", "rate limited"⟩, "kick", 0, 0⟩)
        ⟨⟨some 500, none, "", "server error"⟩, "kick", 1,
          0⟩).nextAllowedAt = 60001 ∧
    (stepFailure
        (stepFailure defaultHealth
          ⟨⟨some 429, some 600, "", "rate limited"⟩, "kick", 0, 0⟩)
        ⟨⟨some 500, none, "", "server error"⟩, "kick", 1,
          0⟩).nextAllowedAt <
      (stepFailure defaultHealth
        ⟨⟨some 429, some 600, "", "rate limited"⟩, "kick", 0,
          0⟩).nextAllowedAt := by
  decide

/-- C6 (amended): along any failure streak in which each recordFailure call
fires no earlier than the backoff deadline then in force (which the
platformInBackoff gate guarantees at every call site), the nextAllowedAt
sequence is non-decreasing; the pre-jitter delay component is capped at
600000 ms; and recordSuccess resets consecutiveFailures and nextAllowedAt to
0 and sets lastSuccessAt to now. -/
theorem backoff_monotone_and_reset :
    (∀ (h : PlatformHealth) (evs : List FailEvent),
      gatedSeq h evs = true →
      nonDecreasingNextAllowed (healthTrace h evs) = true) ∧
    (∀ (e : ApiError) (cf j : Nat), computeBackoffMs e cf j ≤ 600000 + j) ∧
    (∀ (h : PlatformHealth) (now : Nat),
      (setPlatformSuccess h now).consecutiveFailures = 0 ∧
      (setPlatformSuccess h now).nextAllowedAt = 0 ∧
      (setPlatformSuccess h now).lastSuccessAt = now) := by
  refine ⟨?_, ?_, fun h now => ⟨rfl, rfl, rfl⟩⟩
  · intro h evs
    induction evs generalizing h with
    | nil => intro _; rfl
    | cons ev rest ih =>
      intro hg
      rw [gatedSeq, Bool.and_eq_true, decide_eq_true_eq] at hg
      obtain ⟨hnow, hrest⟩ := hg
      rw [healthTrace_cons]
      obtain ⟨t, ht⟩ := healthTrace_head (stepFailure h ev) rest
      rw [ht]
      rw [nonDecreasingNextAllowed, Bool.and_eq_true, decide_eq_true_eq]
      constructor
      · exact stepFailure_next_ge h ev hnow
      · rw [← ht]
        exact ih (stepFailure h ev) hrest
  · intro e cf j
    unfold computeBackoffMs
    exact Nat.add_le_add_right (min_le_left _ _) j

/-- Witness for the amended C6 on a concrete gated two-failure streak. -/
theorem backoff_monotone_and_reset_witness :
    gatedSeq defaultHealth
        [⟨⟨some 429, some 600, "", "rate limited"⟩, "kick", 0, 0⟩,
         ⟨⟨some 500, none, "", "server error"⟩, "kick", 700000, 0⟩] =
      true ∧
    nonDecreasingNextAllowed
        (healthTrace defaultHealth
          [⟨⟨some 429, some 600, "", "rate limited"⟩, "kick", 0, 0⟩,
           ⟨⟨some 500, none, "", "server error"⟩, "kick", 700000, 0⟩]) =
      true ∧
    (setPlatformSuccess defaultHealth 42).nextAllowedAt = 0 :=
  ⟨by decide,
   backoff_monotone_and_reset.1 defaultHealth
     [⟨⟨some 429, some 600, "", "rate limited"⟩, "kick", 0, 0⟩,
      ⟨⟨some 500, none, "", "server error"⟩, "kick", 700000, 0⟩]
     (by decide),
   (backoff_monotone_and_reset.2.2 defaultHealth 42).2.1⟩

/-- C9 counterexample: when the platform's health record does not yet exist
in the state document, the gating check is not read-only: through
getPlatformHealth it installs the default record, mutating the state. -/
theorem isGated_mutates_counterexample :
    (platformInBackoff ⟨none, none⟩ .kick 5).1 ≠
      (⟨none, none⟩ : BotState) ∧
    (platformInBackoff ⟨none, none⟩ .kick 5).1 =
      (⟨some defaultHealth, none⟩ : BotState) ∧
    (platformInBackoff ⟨none, none⟩ .kick 5).2 = false := by
  decide

/-- C9 (amended): the gating check returns true iff nextAllowedAt is in the
future (0 meaning not backing off), and it is read-only whenever the
platform's health record exists; when the record is absent it returns false
and its only mutation is installing the default health record for that
platform, every other field of the state being unchanged. -/
theorem isGated_semantics (st : BotState) (p : Platform) (now : Nat) :
    ((platformInBackoff st p now).2 = true ↔
      now < (getPlatformHealth st p).2.nextAllowedAt) ∧
    (healthOf st p ≠ none → (platformInBackoff st p now).1 = st) ∧
    (healthOf st p = none →
      (platformInBackoff st p now).2 = false ∧
      healthOf (platformInBackoff st p now).1 p = some defaultHealth) ∧
    (∀ p' : Platform, p' ≠ p →
      healthOf (platformInBackoff st p now).1 p' = healthOf st p') := by
  have hiff : ∀ h0 : PlatformHealth,
      ((h0.nextAllowedAt ≠ 0 && now < h0.nextAllowedAt) = true ↔
        now < h0.nextAllowedAt) := by
    intro h0
    simp only [Bool.and_eq_true, decide_eq_true_eq, ne_eq]
    omega
  refine ⟨?_, ?_, ?_, ?_⟩
  · cases p with
    | kick =>
      cases hk : st.kickHealth with
      | some h0 =>
        simpa [platformInBackoff, getPlatformHealth, hk] using hiff h0
      | none =>
        simpa [platformInBackoff, getPlatformHealth, hk] using
          hiff defaultHealth
    | twitch =>
      cases ht : st.twitchHealth with
      | some h0 =>
        simpa [platformInBackoff, getPlatformHealth, ht] using hiff h0
      | none =>
        simpa [platformInBackoff, getPlatformHealth, ht] using
          hiff defaultHealth
  · intro hne
    cases p with
    | kick =>
      cases hk : st.kickHealth with
      | some h0 => simp [platformInBackoff, getPlatformHealth, hk]
      | none => simp [healthOf, hk] at hne
    | twitch =>
      cases ht : st.twitchHealth with
      | some h0 => simp [platformInBackoff, getPlatformHealth, ht]
      | none => simp [healthOf, ht] at hne
  · intro hnone
    cases p with
    | kick =>
      cases hk : st.kickHealth with
      | some h0 => simp [healthOf, hk] at hnone
      | none =>
        refine ⟨?_, ?_⟩
        · simp [platformInBackoff, getPlatformHealth, hk, defaultHealth]
        · simp [platformInBackoff, getPlatformHealth, healthOf, hk]
    | twitch =>
      cases ht : st.twitchHealth with
      | some h0 => simp [healthOf, ht] at hnone
      | none =>
        refine ⟨?_, ?_⟩
        · simp [platformInBackoff, getPlatformHealth, ht, defaultHealth]
        · simp [platformInBackoff, getPlatformHealth, healthOf, ht]
  · intro p' hp'
    cases p with
    | kick =>
      cases p' with
      | kick => exact absurd rfl hp'
      | twitch =>
        cases hk : st.kickHealth with
        | some h0 =>
          simp [platformInBackoff, getPlatformHealth, hk, healthOf]
        | none =>
          simp [platformInBackoff, getPlatformHealth, hk, healthOf]
    | twitch =>
      cases p' with
      | twitch => exact absurd rfl hp'
      | kick =>
        cases ht : st.twitchHealth with
        | some h0 =>
          simp [platformInBackoff, getPlatformHealth, ht, healthOf]
        | none =>
          simp [platformInBackoff, getPlatformHealth, ht, healthOf]

/-- Witness for the amended C9: a present record makes the check read-only
and the iff computes; an absent record installs the default. -/
theorem isGated_semantics_witness :
    (platformInBackoff
        ⟨some ⟨2, 100, none, 0, 0, 0⟩, none⟩ .kick 5).1 =
      (⟨some ⟨2, 100, none, 0, 0, 0⟩, none⟩ : BotState) ∧
    ((platformInBackoff
        ⟨some ⟨2, 100, none, 0, 0, 0⟩, none⟩ .kick 5).2 = true ↔
      5 < (getPlatformHealth
        ⟨some ⟨2, 100, none, 0, 0, 0⟩, none⟩ .kick).2.nextAllowedAt) ∧
    healthOf (platformInBackoff ⟨none, none⟩ .twitch 5).1 .twitch =
      some defaultHealth :=
  ⟨(isGated_semantics ⟨some ⟨2, 100, none, 0, 0, 0⟩, none⟩ .kick 5).2.1
     (by decide),
   (isGated_semantics ⟨some ⟨2, 100, none, 0, 0, 0⟩, none⟩ .kick 5).1,
   ((isGated_semantics ⟨none, none⟩ .twitch 5).2.2.1 rfl).2⟩

/-- C8: match filter.  Qualification is true iff the entity is reported
live, and no category restriction is configured or the reported category id
equals the configured one, and the keyword pattern accepts the title; the
compiled pattern always carries the case-insensitive flag; and a configured
pattern that trims to empty, exceeds the 200-character safety bound, or
fails to compile falls back to the fixed default pattern instead of
erroring. -/
theorem match_filter (test : CompiledPattern → String → Bool)
    (keyword : CompiledPattern) (isLive : Bool)
    (categoryId gtaCategoryId : Option Nat) (title : String)
    (compiles : String → Bool) (pattern : Option String) :
    (shouldHaveMessage test keyword isLive categoryId gtaCategoryId title =
        true ↔
      (isLive = true ∧ (gtaCategoryId = none ∨ categoryId = gtaCategoryId) ∧
        test keyword title = true)) ∧
    (((pattern.getD "").trim = "" ∨ 200 < (pattern.getD "").trim.length ∨
        compiles ((pattern.getD "").trim) = false) →
      compileRegexOrFallback compiles pattern defaultKeywordPattern =
        defaultKeywordPattern) ∧
    ((compileRegexOrFallback compiles pattern
        defaultKeywordPattern).caseInsensitive = true) := by
  refine ⟨?_, ?_, ?_⟩
  · simp only [shouldHaveMessage, Bool.and_eq_true, Bool.or_eq_true,
      Option.isNone_iff_eq_none, decide_eq_true_eq, and_assoc]
  · intro hbad
    simp only [compileRegexOrFallback]
    split_ifs with h1 h2 h3
    · rfl
    · rfl
    · rcases hbad with hb | hb | hb
      · exact absurd hb h1
      · exact absurd hb h2
      · rw [h3] at hb
        cases hb
    · rfl
  · simp only [compileRegexOrFallback]
    split_ifs <;> rfl

/-- Witness for C8: a pattern that fails to compile falls back to the
default, and the qualification iff computes at a concrete snapshot. -/
theorem match_filter_witness :
    compileRegexOrFallback (fun _ => false) (some "boom")
        defaultKeywordPattern = defaultKeywordPattern ∧
    (shouldHaveMessage (fun _ _ => true) defaultKeywordPattern true
        (some 3) (some 3) "NOX RP" = true ↔
      (true = true ∧
        ((some 3 : Option Nat) = none ∨ (some 3 : Option Nat) = some 3) ∧
        (fun (_ : CompiledPattern) (_ : String) => true) defaultKeywordPattern
          "NOX RP" = true)) :=
  ⟨(match_filter (fun _ _ => true) defaultKeywordPattern true (some 3)
      (some 3) "NOX RP" (fun _ => false) (some "boom")).2.1
     (Or.inr (Or.inr rfl)),
   (match_filter (fun _ _ => true) defaultKeywordPattern true (some 3)
      (some 3) "NOX RP" (fun _ => false) (some "boom")).1⟩

end StreamNotifier
